import Mathlib

/-!
Verification of the DHLottery client layer (`custom_components/donghang_lottery/api.py`)
against its natural-language specification.

Modelling conventions:
* Machine bytes are `Fin 256`; byte strings are `List (Fin 256)`; text is `List Char`.
* Python floats (timestamps, delays) are modelled as rationals.
* The external cryptographic library calls (PBKDF2, AES-CBC, base64) are abstracted
  as a `CryptoPrims` bundle whose inverse laws are exactly the library guarantees;
  the repository's own code (hex framing, key-code padding, PKCS#7 pad/unpad,
  the length checks) is translated concretely.
* Stateful request handling is modelled as explicit state-passing functions over a
  script of per-attempt HTTP outcomes, producing an event trace.
-/

abbrev Byte := Fin 256

/-- One hex digit as a lowercase character, as produced by Python `bytes.hex()`. -/
def hexDigitChar (n : Fin 16) : Char :=
  if n.val < 10 then Char.ofNat (48 + n.val) else Char.ofNat (87 + n.val)

/-- Two lowercase hex characters for one byte (`bytes.hex()` per byte). -/
def byteToHexChars (b : Byte) : List Char :=
  [hexDigitChar ⟨b.val / 16, by have := b.isLt; omega⟩,
   hexDigitChar ⟨b.val % 16, by have := b.isLt; omega⟩]

/-- `bytes.hex()`: lowercase hex expansion of a byte string. -/
def bytesToHex (bs : List Byte) : List Char :=
  (bs.map byteToHexChars).flatten

/-- Value of one hex character, accepting both cases (`bytes.fromhex`). -/
def hexDigitVal (c : Char) : Option (Fin 16) :=
  let n := c.toNat
  if h1 : 48 ≤ n ∧ n ≤ 57 then some ⟨n - 48, by omega⟩
  else if h2 : 97 ≤ n ∧ n ≤ 102 then some ⟨n - 97 + 10, by omega⟩
  else if h3 : 65 ≤ n ∧ n ≤ 70 then some ⟨n - 65 + 10, by omega⟩
  else none

/-- Combine a high and a low hex digit into one byte. -/
def hexPairByte (h l : Fin 16) : Byte :=
  ⟨h.val * 16 + l.val, by have := h.isLt; have := l.isLt; omega⟩

/-- `bytes.fromhex`: fails on odd length or on a non-hex character. -/
def hexDecode : List Char → Option (List Byte)
  | [] => some []
  | c1 :: c2 :: rest =>
    match hexDigitVal c1, hexDigitVal c2, hexDecode rest with
    | some h, some l, some bs => some (hexPairByte h l :: bs)
    | _, _, _ => none
  | [_] => none

theorem hexDigitVal_hexDigitChar (d : Fin 16) : hexDigitVal (hexDigitChar d) = some d := by
  revert d
  decide

theorem hexPairByte_div_mod (b : Byte) (h1 : b.val / 16 < 16) (h2 : b.val % 16 < 16) :
    hexPairByte ⟨b.val / 16, h1⟩ ⟨b.val % 16, h2⟩ = b := by
  apply Fin.ext
  show b.val / 16 * 16 + b.val % 16 = b.val
  omega

theorem bytesToHex_length (bs : List Byte) : (bytesToHex bs).length = 2 * bs.length := by
  induction bs with
  | nil => rfl
  | cons b rest ih =>
    simp only [bytesToHex, List.map_cons, List.flatten, byteToHexChars] at ih ⊢
    simp [ih]
    omega

theorem hexDecode_bytesToHex (bs : List Byte) : hexDecode (bytesToHex bs) = some bs := by
  induction bs with
  | nil => rfl
  | cons b rest ih =>
    show hexDecode (byteToHexChars b ++ bytesToHex rest) = some (b :: rest)
    simp only [byteToHexChars, List.cons_append, List.nil_append]
    rw [hexDecode]
    rw [hexDigitVal_hexDigitChar, hexDigitVal_hexDigitChar, ih]
    simp [hexPairByte_div_mod]

/-- `_pad_bytes(data, block_size)`: PKCS#7-style padding from the source. -/
def _pad_bytes (data : List Byte) (blockSize : ℕ) : List Byte :=
  let padLen := blockSize - data.length % blockSize
  data ++ List.replicate padLen ⟨padLen % 256, Nat.mod_lt _ (by norm_num)⟩

/-- `_unpad_bytes(data)`: tolerant unpadding from the source — a final byte that is
not a plausible padding length leaves the data unchanged instead of failing. -/
def _unpad_bytes (data : List Byte) : List Byte :=
  if data.isEmpty then data
  else
    let padLen := (data.getLastD 0).val
    if padLen < 1 ∨ padLen > data.length then data
    else data.take (data.length - padLen)

theorem unpad_pad (data : List Byte) : _unpad_bytes (_pad_bytes data 16) = data := by
  have hmod : data.length % 16 < 16 := Nat.mod_lt _ (by norm_num)
  set padLen := 16 - data.length % 16 with hpad
  have h1 : 1 ≤ padLen := by omega
  have h16 : padLen ≤ 16 := by omega
  have hv : padLen % 256 = padLen := Nat.mod_eq_of_lt (by omega)
  set pb : Byte := ⟨padLen % 256, Nat.mod_lt _ (by norm_num)⟩ with hpb
  have hpadeq : _pad_bytes data 16 = data ++ List.replicate padLen pb := by
    simp only [_pad_bytes, ← hpad, ← hpb]
  obtain ⟨k, hk⟩ : ∃ k, padLen = k + 1 := ⟨padLen - 1, by omega⟩
  have hrepl : data ++ List.replicate padLen pb
      = (data ++ List.replicate k pb) ++ [pb] := by
    rw [hk, List.replicate_succ', List.append_assoc]
  have hlenfull : (data ++ List.replicate padLen pb).length = data.length + padLen := by
    simp
  have hlast : (data ++ List.replicate padLen pb).getLastD 0 = pb := by
    rw [hrepl]; exact List.getLastD_concat _ _ _
  have hne : (data ++ List.replicate padLen pb).isEmpty = false := by
    rw [hrepl]; simp
  rw [hpadeq]
  unfold _unpad_bytes
  rw [hne]
  simp only [Bool.false_eq_true, if_false, hlast, hlenfull, hpb]
  have hcond : ¬(padLen % 256 < 1 ∨ padLen % 256 > data.length + padLen) := by omega
  rw [if_neg hcond]
  have hsub : data.length + padLen - padLen % 256 = data.length := by omega
  rw [hsub]
  exact List.take_left data _

/-- External cryptographic primitives used by `_enc_text`/`_dec_text`, abstracted with
the inverse laws the pycryptodome/stdlib implementations guarantee: AES-CBC decryption
inverts encryption under the same key and IV, CBC preserves length, and base64
decoding inverts encoding. -/
structure CryptoPrims where
  kdf : List Char → List Byte → List Byte
  aesCbcEncrypt : List Byte → List Byte → List Byte → List Byte
  aesCbcDecrypt : List Byte → List Byte → List Byte → List Byte
  b64encode : List Byte → List Char
  b64decode : List Char → Option (List Byte)
  dec_enc : ∀ key iv d, aesCbcDecrypt key iv (aesCbcEncrypt key iv d) = d
  enc_length : ∀ key iv d, (aesCbcEncrypt key iv d).length = d.length
  b64_dec_enc : ∀ bs, b64decode (b64encode bs) = some bs

/-- `(self._key_code or "")[:32].ljust(32, "0")`: truncate the session key code to
32 characters and right-pad with `'0'`. -/
def padKeyCode (keyCode : Option (List Char)) : List Char :=
  let k := (keyCode.getD []).take 32
  k ++ List.replicate (32 - k.length) '0'

inductive DecodeFail where
  | invalidPayload
  | badHex
  | badBase64
  | badBlockLength
deriving DecidableEq, Repr

/-- `_enc_text(plain_text)`: fresh 32-byte salt and 16-byte IV (passed explicitly here),
PBKDF2 key from the padded key code, AES-CBC over the PKCS#7-padded plaintext, framed
as `hex(salt) + hex(iv) + base64(ciphertext)`.  Plaintext is its UTF-8 byte sequence. -/
def _enc_text (P : CryptoPrims) (keyCode : Option (List Char)) (salt iv : List Byte)
    (plainBytes : List Byte) : List Char :=
  let passphrase := padKeyCode keyCode
  let key := P.kdf passphrase salt
  bytesToHex salt ++ bytesToHex iv ++ P.b64encode (P.aesCbcEncrypt key iv (_pad_bytes plainBytes 16))

/-- `_dec_text(enc_text)`: rejects inputs shorter than 96 characters, splits off the
hex salt and IV, base64-decodes the remainder, AES-CBC-decrypts and unpads.  The
error constructors mirror where the Python code would raise: `invalidPayload` is the
explicit `DonghangLotteryResponseError`, `badHex`/`badBase64`/`badBlockLength` are the
library `ValueError`s escaping `bytes.fromhex`, `base64.b64decode` and CBC decrypt. -/
def _dec_text (P : CryptoPrims) (keyCode : Option (List Char)) (encText : List Char) :
    Except DecodeFail (List Byte) :=
  if encText.length < 96 then .error .invalidPayload
  else
    match hexDecode (encText.take 64) with
    | none => .error .badHex
    | some salt =>
      match hexDecode ((encText.drop 64).take 32) with
      | none => .error .badHex
      | some iv =>
        match P.b64decode (encText.drop 96) with
        | none => .error .badBase64
        | some cryptBytes =>
          if cryptBytes.length % 16 = 0 then
            let passphrase := padKeyCode keyCode
            let key := P.kdf passphrase salt
            .ok (_unpad_bytes (P.aesCbcDecrypt key iv cryptBytes))
          else .error .badBlockLength

/-- C4: decrypting the result of encrypting any plaintext, with the same key code on
both sides, recovers the plaintext, for every salt of 32 bytes and IV of 16 bytes
generated during encryption.  Plaintexts are modelled by their UTF-8 byte sequences;
`str.encode`/`decode` with `errors="ignore"` is the identity round trip on valid
UTF-8, so byte-level recovery is string-level recovery. -/
theorem dec_text_enc_text (P : CryptoPrims) (kc : Option (List Char))
    (salt iv plain : List Byte) (hsalt : salt.length = 32) (hiv : iv.length = 16) :
    _dec_text P kc (_enc_text P kc salt iv plain) = .ok plain := by
  have hs64 : (bytesToHex salt).length = 64 := by rw [bytesToHex_length, hsalt]
  have hi32 : (bytesToHex iv).length = 32 := by rw [bytesToHex_length, hiv]
  set key := P.kdf (padKeyCode kc) salt with hkey
  set C := P.b64encode (P.aesCbcEncrypt key iv (_pad_bytes plain 16)) with hC
  have henc : _enc_text P kc salt iv plain = bytesToHex salt ++ (bytesToHex iv ++ C) := by
    simp [_enc_text, ← hkey, ← hC]
  rw [henc]
  have hlen : (bytesToHex salt ++ (bytesToHex iv ++ C)).length = 96 + C.length := by
    simp [hs64, hi32]; omega
  have htake64 : (bytesToHex salt ++ (bytesToHex iv ++ C)).take 64 = bytesToHex salt := by
    rw [← hs64]; exact List.take_left _ _
  have hdrop64 : (bytesToHex salt ++ (bytesToHex iv ++ C)).drop 64 = bytesToHex iv ++ C := by
    rw [← hs64]; exact List.drop_left _ _
  have htake32 : (bytesToHex iv ++ C).take 32 = bytesToHex iv := by
    rw [← hi32]; exact List.take_left _ _
  have hdrop96 : (bytesToHex salt ++ (bytesToHex iv ++ C)).drop 96 = C := by
    rw [← List.append_assoc]
    have h96 : (bytesToHex salt ++ bytesToHex iv).length = 96 := by simp [hs64, hi32]
    rw [← h96]; exact List.drop_left _ _
  have hpadmod : (_pad_bytes plain 16).length % 16 = 0 := by
    have : (_pad_bytes plain 16).length = plain.length + (16 - plain.length % 16) := by
      simp [_pad_bytes]
    rw [this]
    omega
  unfold _dec_text
  rw [if_neg (by rw [hlen]; omega)]
  simp only [htake64, hexDecode_bytesToHex, hdrop64, htake32, hdrop96, hC, P.b64_dec_enc]
  rw [if_pos (by rw [P.enc_length]; exact hpadmod)]
  rw [← hkey, P.dec_enc, unpad_pad]

set_option maxRecDepth 8192 in
theorem char_ofNat_byte_toNat (b : Byte) : (Char.ofNat b.val).toNat % 256 = b.val := by
  revert b
  decide

/-- A concrete instantiation of the abstract primitives (identity cipher, byte-wise
base64 stand-in) satisfying all the inverse laws, used to witness the theorems. -/
def idPrims : CryptoPrims where
  kdf := fun _ _ => []
  aesCbcEncrypt := fun _ _ d => d
  aesCbcDecrypt := fun _ _ d => d
  b64encode := fun bs => bs.map (fun b => Char.ofNat b.val)
  b64decode := fun cs => some (cs.map (fun c => ⟨c.toNat % 256, Nat.mod_lt _ (by norm_num)⟩))
  dec_enc := fun _ _ _ => rfl
  enc_length := fun _ _ _ => rfl
  b64_dec_enc := by
    intro bs
    induction bs with
    | nil => rfl
    | cons b rest ih =>
      simp only [List.map_cons, Option.some.injEq, List.cons.injEq] at ih ⊢
      refine ⟨?_, ih⟩
      exact Fin.ext (char_ofNat_byte_toNat b)

/-- Witness for C4 at a concrete salt, IV, key code and plaintext. -/
theorem dec_text_enc_text_witness :
    _dec_text idPrims (some (List.replicate 32 'k'))
      (_enc_text idPrims (some (List.replicate 32 'k'))
        (List.replicate 32 (7 : Byte)) (List.replicate 16 (3 : Byte)) [72, 105])
      = .ok [72, 105] :=
  dec_text_enc_text idPrims (some (List.replicate 32 'k'))
    (List.replicate 32 (7 : Byte)) (List.replicate 16 (3 : Byte)) [72, 105]
    (by simp) (by simp)

/-- Counterexample to C7: an input of exactly 96 characters, none of which is a hex
digit, passes the `< 96` length guard but then fails inside `bytes.fromhex` with a
`ValueError` (modelled as `.badHex`) — the claim that every input of at least 96
characters yields a best-effort decoded text without crashing is false. -/
theorem dec_text_crashes_on_non_hex :
    96 ≤ (List.replicate 96 'z').length ∧
    _dec_text idPrims none (List.replicate 96 'z') = .error .badHex := by
  constructor
  · simp
  · rfl

/-- C7 (amended): `_dec_text` fails with `InvalidPayload` exactly when the input is
shorter than 96 characters; for inputs of at least 96 characters whose first 96
characters are valid hex and whose remainder base64-decodes to a block-aligned
ciphertext, decryption always returns best-effort text — in particular
`_unpad_bytes` tolerates padding-length anomalies by returning the data unchanged
instead of failing.  (Non-hex or non-base64 tails of long inputs escape as library
errors, which is what forces the amendment.) -/
theorem dec_text_invalid_payload_iff (P : CryptoPrims) (kc : Option (List Char))
    (encText : List Char) :
    (_dec_text P kc encText = .error .invalidPayload ↔ encText.length < 96)
    ∧ (∀ salt iv ct, hexDecode (encText.take 64) = some salt →
        hexDecode ((encText.drop 64).take 32) = some iv →
        P.b64decode (encText.drop 96) = some ct →
        ct.length % 16 = 0 → ¬ encText.length < 96 →
        _dec_text P kc encText
          = .ok (_unpad_bytes (P.aesCbcDecrypt (P.kdf (padKeyCode kc) salt) iv ct)))
    ∧ (∀ d : List Byte, d.isEmpty = false →
        ((d.getLastD 0).val < 1 ∨ (d.getLastD 0).val > d.length) →
        _unpad_bytes d = d) := by
  refine ⟨⟨?_, ?_⟩, ?_, ?_⟩
  · intro h
    by_contra h96
    unfold _dec_text at h
    rw [if_neg h96] at h
    split at h
    · exact DecodeFail.noConfusion (Except.error.inj h)
    · split at h
      · exact DecodeFail.noConfusion (Except.error.inj h)
      · split at h
        · exact DecodeFail.noConfusion (Except.error.inj h)
        · split at h
          · exact Except.noConfusion h
          · exact DecodeFail.noConfusion (Except.error.inj h)
  · intro h96
    unfold _dec_text
    rw [if_pos h96]
  · intro salt iv ct h1 h2 h3 h4 h96
    unfold _dec_text
    rw [if_neg h96]
    simp only [h1, h2, h3]
    rw [if_pos h4]
  · intro d hne hcond
    unfold _unpad_bytes
    simp only [hne, Bool.false_eq_true, if_false]
    rw [if_pos hcond]

/-- Witness for the C7 amendment: the short-input direction and the well-formed
long-input direction, both at concrete inputs. -/
theorem dec_text_invalid_payload_iff_witness :
    _dec_text idPrims none [] = .error .invalidPayload ∧
    _dec_text idPrims none (List.replicate 96 '0') = .ok [] := by
  constructor
  · exact (dec_text_invalid_payload_iff idPrims none []).1.mpr (by decide)
  · exact (dec_text_invalid_payload_iff idPrims none (List.replicate 96 '0')).2.1
      (List.replicate 32 (0 : Byte)) (List.replicate 16 (0 : Byte)) []
      (by rfl) (by rfl) (by rfl) (by decide) (by simp)

/-! ## Circuit breaker (`_check_circuit_breaker`, `_record_success`, `_record_failure`) -/

inductive CircuitStatus where
  | closed
  | isOpen
  | halfOpen
deriving DecidableEq, Repr

/-- The circuit-breaker slice of the client state, as initialised in `__init__`:
`_circuit_state`, `_consecutive_failures`, `_circuit_failure_threshold`,
`_circuit_open_time`, `_circuit_cooldown`.  Timestamps are rationals. -/
structure BreakerState where
  circuitState : CircuitStatus
  consecutiveFailures : ℕ
  circuitOpenTime : ℚ
  circuitCooldown : ℚ
  failureThreshold : ℕ
deriving DecidableEq, Repr

/-- Breaker fields as set in `__init__`. -/
def initBreaker : BreakerState where
  circuitState := .closed
  consecutiveFailures := 0
  circuitOpenTime := 0
  circuitCooldown := 180
  failureThreshold := 2

/-- `_check_circuit_breaker()`: returns whether a request may proceed, transitioning
Open → HalfOpen once the cooldown has elapsed. -/
def _check_circuit_breaker (now : ℚ) (st : BreakerState) : Bool × BreakerState :=
  match st.circuitState with
  | .closed => (true, st)
  | .isOpen =>
    if now - st.circuitOpenTime ≥ st.circuitCooldown then
      (true, { st with circuitState := .halfOpen })
    else (false, st)
  | .halfOpen => (true, st)

/-- `_record_success()`: reset the failure counter and close the circuit. -/
def _record_success (st : BreakerState) : BreakerState :=
  let st1 := { st with consecutiveFailures := 0 }
  if st1.circuitState ≠ .closed then { st1 with circuitState := .closed } else st1

/-- `_record_failure()`: count a consecutive failure; at the threshold, open the
circuit, stamp the opening time and set the cooldown to
`min(300, 60 * 2^(failures - threshold))`. -/
def _record_failure (now : ℚ) (st : BreakerState) : BreakerState :=
  let st1 := { st with consecutiveFailures := st.consecutiveFailures + 1 }
  if st1.consecutiveFailures ≥ st1.failureThreshold then
    if st1.circuitState ≠ .isOpen then
      { st1 with
        circuitState := .isOpen
        circuitOpenTime := now
        circuitCooldown :=
          min 300 (60 * 2 ^ (st1.consecutiveFailures - st1.failureThreshold)) }
    else st1
  else st1

/-- C3: with threshold 2, from the initial Closed state: two failures open the
circuit; a check before the (60 s) cooldown elapses is denied; a check after it is
allowed and half-opens the circuit; one success then closes it and zeroes the
failure counter. -/
theorem circuit_breaker_scenario (t1 t2 t3 t4 : ℚ)
    (h3 : t3 - t2 < 60) (h4 : 60 ≤ t4 - t2) :
    (_record_failure t1 initBreaker).circuitState = .closed
    ∧ (_record_failure t2 (_record_failure t1 initBreaker)).circuitState = .isOpen
    ∧ (_check_circuit_breaker t3
        (_record_failure t2 (_record_failure t1 initBreaker))).1 = false
    ∧ (_check_circuit_breaker t4
        (_record_failure t2 (_record_failure t1 initBreaker))).1 = true
    ∧ (_check_circuit_breaker t4
        (_record_failure t2 (_record_failure t1 initBreaker))).2.circuitState = .halfOpen
    ∧ (_record_success (_check_circuit_breaker t4
        (_record_failure t2 (_record_failure t1 initBreaker))).2).circuitState = .closed
    ∧ (_record_success (_check_circuit_breaker t4
        (_record_failure t2 (_record_failure t1 initBreaker))).2).consecutiveFailures
        = 0 := by
  have hb1 : _record_failure t1 initBreaker =
      { circuitState := .closed, consecutiveFailures := 1, circuitOpenTime := 0,
        circuitCooldown := 180, failureThreshold := 2 } := by
    simp [_record_failure, initBreaker]
  have hb2 : _record_failure t2 (_record_failure t1 initBreaker) =
      { circuitState := .isOpen, consecutiveFailures := 2, circuitOpenTime := t2,
        circuitCooldown := 60, failureThreshold := 2 } := by
    rw [hb1]
    simp [_record_failure]
    norm_num
  rw [hb2]
  have hc3 : ¬ t3 - t2 ≥ (60 : ℚ) := by linarith
  have hchk4 : _check_circuit_breaker t4
      { circuitState := .isOpen, consecutiveFailures := 2, circuitOpenTime := t2,
        circuitCooldown := 60, failureThreshold := 2 } =
      (true, { circuitState := .halfOpen, consecutiveFailures := 2,
               circuitOpenTime := t2, circuitCooldown := 60, failureThreshold := 2 }) := by
    simp only [_check_circuit_breaker]
    rw [if_pos (by linarith)]
  refine ⟨by rw [hb1], by rfl, ?_, ?_, ?_, ?_, ?_⟩
  · simp only [_check_circuit_breaker]
    rw [if_neg hc3]
  · rw [hchk4]
  · rw [hchk4]
  · rw [hchk4]; rfl
  · rw [hchk4]; rfl

/-- Witness for C3 at concrete times 0, 0, 10, 100. -/
theorem circuit_breaker_scenario_witness :
    (_record_failure 0 initBreaker).circuitState = .closed
    ∧ (_record_failure 0 (_record_failure 0 initBreaker)).circuitState = .isOpen
    ∧ (_check_circuit_breaker 10
        (_record_failure 0 (_record_failure 0 initBreaker))).1 = false
    ∧ (_check_circuit_breaker 100
        (_record_failure 0 (_record_failure 0 initBreaker))).1 = true
    ∧ (_check_circuit_breaker 100
        (_record_failure 0 (_record_failure 0 initBreaker))).2.circuitState = .halfOpen
    ∧ (_record_success (_check_circuit_breaker 100
        (_record_failure 0 (_record_failure 0 initBreaker))).2).circuitState = .closed
    ∧ (_record_success (_check_circuit_breaker 100
        (_record_failure 0 (_record_failure 0 initBreaker))).2).consecutiveFailures
        = 0 :=
  circuit_breaker_scenario 0 0 10 100 (by norm_num) (by norm_num)

/-! ## Session state (`async_login`, `_refresh_session`, `_full_session_reset`,
`async_keepalive`, `_update_session_ids`, `_check_session_refresh_needed`)

The modelled slice of the client state is exactly the fields the claims mention:
the logged-in flag, the session/tracking cookie values (as abstract numeric ids),
the circuit breaker, and the request-count/time fields driving session refresh.
Cookie-jar lookups and network success are supplied as parameters. -/

structure ClientState where
  loggedIn : Bool
  sessionId : Option ℕ
  wmonid : Option ℕ
  breaker : BreakerState
  requestCount : ℕ
  sessionStartTime : ℚ
deriving DecidableEq, Repr

/-- The fields as initialised in `__init__` at start time `t0`. -/
def initClientState (t0 : ℚ) : ClientState where
  loggedIn := false
  sessionId := none
  wmonid := none
  breaker := initBreaker
  requestCount := 0
  sessionStartTime := t0

/-- `_update_session_ids()`: overwrite the session id / tracking id from the cookie
jar when the corresponding cookie is present, else leave them unchanged.
(`DHJSESSIONID` and the `JSESSIONID` fallback are collapsed into one parameter,
since both write the same field.) -/
def _update_session_ids (cookieSid cookieW : Option ℕ) (st : ClientState) : ClientState :=
  let st1 := match cookieSid with
    | some v => { st with sessionId := some v }
    | none => st
  match cookieW with
  | some v => { st1 with wmonid := some v }
  | none => st1

inductive LoginResult where
  | ok
  | connectFailed
  | authFailed
deriving DecidableEq, Repr

/-- `async_login(force)` modelled at state level: a no-op when already logged in and
not forced; `netFails` abstracts a failure of the connectivity check / login POST
(the raised error leaves the modelled fields unchanged); otherwise cookies are
synced, and login fails with `AuthenticationError` exactly when no session cookie
resulted — only after that check is the logged-in flag set. -/
def async_login (force : Bool) (netFails : Bool) (cookieSid cookieW : Option ℕ)
    (st : ClientState) : ClientState × LoginResult :=
  if st.loggedIn ∧ ¬force then (st, .ok)
  else if netFails then (st, .connectFailed)
  else
    let st1 := _update_session_ids cookieSid cookieW st
    match st1.sessionId with
    | none => (st1, .authFailed)
    | some _ => ({ st1 with loggedIn := true }, .ok)

/-- `_refresh_session()`: clear login/session state, restart counters, then re-login
with `force=True`; any login exception is swallowed. -/
def _refresh_session (now : ℚ) (netFails : Bool) (cookieSid cookieW : Option ℕ)
    (st : ClientState) : ClientState :=
  let st1 := { st with
    loggedIn := false
    sessionId := none
    wmonid := none
    requestCount := 0
    sessionStartTime := now }
  (async_login true netFails cookieSid cookieW st1).1

/-- `_full_session_reset()`: clear all session state (cookie jar included) without
re-logging in. -/
def _full_session_reset (now : ℚ) (st : ClientState) : ClientState :=
  { st with
    loggedIn := false
    sessionId := none
    wmonid := none
    requestCount := 0
    sessionStartTime := now }

/-- `async_keepalive()`: login when not logged in, else touch an authenticated page
and re-sync cookies. -/
def async_keepalive (netFails : Bool) (cookieSid cookieW : Option ℕ)
    (st : ClientState) : ClientState :=
  if ¬st.loggedIn then (async_login false netFails cookieSid cookieW st).1
  else _update_session_ids cookieSid cookieW st

/-- `_check_session_refresh_needed()`: 1800 s elapsed or 50 requests issued. -/
def _check_session_refresh_needed (now : ℚ) (st : ClientState) : Bool :=
  if now - st.sessionStartTime ≥ 1800 then true
  else if st.requestCount ≥ 50 then true
  else false

/-! ## The `_request` retry loop

The HTTP layer is scripted: `script i` is the outcome the transport produces for
attempt `i` (a status code, a timeout, a connection error, or an external
cancellation), and `backoffCancel i` says whether the backoff sleep after attempt
`i` is interrupted by a cancellation.  The run returns the event trace, the result
(`response`/`cancelled`/`requestFailed`/`circuitOpen`/`deadlock` mirroring return,
propagated `CancelledError`, raised `DonghangLotteryError` after exhaustion, the
breaker denial, and a hang) and the final state.

The whole retry loop runs inside `async with self._request_semaphore` — a
non-reentrant `asyncio.Semaphore(1)` held by the same task throughout.  Three
branches re-enter `_request` while it is held, so any path that reaches a nested
`_request` call re-acquires the held semaphore and the task hangs forever
(`deadlock`):

* the 401 branch calls `async_login(force=True)`; the preceding
  `_full_session_reset` clears the RSA-key cache and the warm-up flags, so once the
  `_quick_connectivity_check` (a direct `session.request`, no semaphore) succeeds,
  the login unavoidably reaches a nested `_request` — the warm-up page visit, the
  RSA-key fetch, or the login POST.  Only a connectivity-check failure
  (`reloginConnFails i = true`) escapes: `async_login` then raises before any
  nested call, the generic `except Exception` branch records the error, sleeps and
  continues;
* the 403 retry branch calls `_warmup_login_pages` right after a full reset
  (flags cleared); the warm-up issues a nested `_request` unless its
  consecutive-failure counter has reached the skip threshold
  (`warmupSkip i = true`), in which case it returns without any request;
* the session-refresh path before the loop calls `_refresh_session →
  async_login(force=True)` with the RSA cache just cleared: a successful
  connectivity check again leads into a nested `_request`; a failing one
  (`refreshConnFails = true`) is swallowed by `_refresh_session` and the request
  proceeds logged out.

The final state paired with `deadlock` is the state visible to other tasks at the
moment the task hangs. -/

inductive Outcome where
  | status (code : ℕ)
  | timeoutErr
  | connErr
  | cancelledErr
deriving DecidableEq, Repr

inductive AttemptError where
  | timeoutE
  | connE
deriving DecidableEq, Repr

/-- The error class wrapped by `RequestFailed` for each exceptional outcome. -/
def errOfOutcome : Outcome → Option AttemptError
  | .timeoutErr => some .timeoutE
  | .connErr => some .connE
  | _ => none

inductive ReqResult where
  | response (code : ℕ)
  | cancelled
  | requestFailed (last : Option AttemptError)
  | circuitOpen
  | deadlock
deriving DecidableEq, Repr

/-- Trace events; `relogin` marks entry into `async_login(force=True)` and `warmup`
entry into `_warmup_login_pages` (both may end in the semaphore deadlock). -/
inductive Ev where
  | circuitCheck
  | sessionRefresh
  | throttle
  | httpCall (attempt : ℕ)
  | backoff
  | sessionReset
  | relogin
  | warmup
  | breakerFail
deriving DecidableEq, Repr

/-- The `for attempt in range(effective_retries + 1)` loop of `_request`, recursing
on the number of loop iterations left (`left = retries + 1 - attempt`); the
`left = 0` case is the code after the loop: record a breaker failure (unless the
breaker is skipped) and raise `RequestFailed` wrapping the last error.  The 401
retry and 403 retry branches end in the semaphore deadlock unless their escape
condition holds (see the section comment). -/
def attemptLoop (now : ℚ) (script : ℕ → Outcome)
    (backoffCancel reloginConnFails warmupSkip : ℕ → Bool)
    (retries : ℕ) (skipCB : Bool) :
    ℕ → ℕ → Option AttemptError → ClientState → List Ev × ReqResult × ClientState
  | _attempt, 0, lastErr, st =>
    if skipCB then ([], .requestFailed lastErr, st)
    else ([Ev.breakerFail], .requestFailed lastErr,
      { st with breaker := _record_failure now st.breaker })
  | attempt, left + 1, lastErr, st =>
    match script attempt with
    | .cancelledErr => ([Ev.httpCall attempt], .cancelled, st)
    | .timeoutErr =>
      if attempt < retries then
        if backoffCancel attempt then ([Ev.httpCall attempt], .cancelled, st)
        else
          let rest := attemptLoop now script backoffCancel reloginConnFails warmupSkip
            retries skipCB (attempt + 1) left (some .timeoutE) st
          (Ev.httpCall attempt :: Ev.backoff :: rest.1, rest.2)
      else
        let rest := attemptLoop now script backoffCancel reloginConnFails warmupSkip
          retries skipCB (attempt + 1) left (some .timeoutE) st
        (Ev.httpCall attempt :: rest.1, rest.2)
    | .connErr =>
      if attempt < retries then
        if backoffCancel attempt then ([Ev.httpCall attempt], .cancelled, st)
        else
          let rest := attemptLoop now script backoffCancel reloginConnFails warmupSkip
            retries skipCB (attempt + 1) left (some .connE) st
          (Ev.httpCall attempt :: Ev.backoff :: rest.1, rest.2)
      else
        let rest := attemptLoop now script backoffCancel reloginConnFails warmupSkip
          retries skipCB (attempt + 1) left (some .connE) st
        (Ev.httpCall attempt :: rest.1, rest.2)
    | .status code =>
      if code = 200 then
        ([Ev.httpCall attempt], .response 200,
          { st with breaker := _record_success st.breaker })
      else if code = 401 then
        let st1 := _full_session_reset now st
        if attempt < retries then
          -- sleep(uniform(5, 10)), then `async_login(force=True)` under the held
          -- semaphore: the reset just cleared the RSA cache and warm-up flags, so
          -- a successful connectivity check leads into a nested `_request` and the
          -- task deadlocks; a failed one raises before any nested call and is
          -- caught by the generic exception branch, which backs off and retries
          if reloginConnFails attempt then
            if backoffCancel attempt then
              ([Ev.httpCall attempt, Ev.sessionReset, Ev.backoff, Ev.relogin],
                .cancelled, st1)
            else
              let rest := attemptLoop now script backoffCancel reloginConnFails
                warmupSkip retries skipCB (attempt + 1) left (some .connE) st1
              (Ev.httpCall attempt :: Ev.sessionReset :: Ev.backoff :: Ev.relogin ::
                Ev.backoff :: rest.1, rest.2)
          else
            ([Ev.httpCall attempt, Ev.sessionReset, Ev.backoff, Ev.relogin],
              .deadlock, st1)
        else ([Ev.httpCall attempt, Ev.sessionReset], .response code, st1)
      else if code = 403 then
        let st1 := { st with breaker := _record_failure now st.breaker }
        if attempt < retries then
          let st2 := _full_session_reset now st1
          -- backoff, then `_warmup_login_pages` under the held semaphore: the
          -- reset cleared the warm-up flags, so unless the consecutive-failure
          -- counter forces the skip, the warm-up issues a nested `_request` and
          -- the task deadlocks
          if warmupSkip attempt then
            let rest := attemptLoop now script backoffCancel reloginConnFails
              warmupSkip retries skipCB (attempt + 1) left lastErr st2
            (Ev.httpCall attempt :: Ev.breakerFail :: Ev.sessionReset :: Ev.backoff ::
              Ev.warmup :: rest.1, rest.2)
          else
            ([Ev.httpCall attempt, Ev.breakerFail, Ev.sessionReset, Ev.backoff,
              Ev.warmup], .deadlock, st2)
        else ([Ev.httpCall attempt, Ev.breakerFail], .response code, st1)
      else if code = 429 then
        let st1 := { st with breaker := _record_failure now st.breaker }
        if attempt < retries then
          let rest := attemptLoop now script backoffCancel reloginConnFails warmupSkip
            retries skipCB (attempt + 1) left lastErr st1
          (Ev.httpCall attempt :: Ev.breakerFail :: Ev.backoff :: rest.1, rest.2)
        else ([Ev.httpCall attempt, Ev.breakerFail], .response code, st1)
      else if 500 ≤ code then
        if attempt < retries then
          let rest := attemptLoop now script backoffCancel reloginConnFails warmupSkip
            retries skipCB (attempt + 1) left lastErr st
          (Ev.httpCall attempt :: Ev.backoff :: rest.1, rest.2)
        else ([Ev.httpCall attempt], .response code, st)
      else ([Ev.httpCall attempt], .response code, st)

/-- `_request(...)`: single in-flight request (semaphore), circuit-breaker gate,
session-refresh check, throttle, then the retry loop over `retries + 1` attempts.
When a session refresh is due, `_refresh_session → async_login(force=True)` runs
under the held semaphore with the RSA cache just cleared: a successful connectivity
check leads into a nested `_request` and the task deadlocks; a failing one
(`refreshConnFails = true`) is swallowed and the request proceeds logged out. -/
def _request (now : ℚ) (script : ℕ → Outcome)
    (backoffCancel reloginConnFails warmupSkip : ℕ → Bool)
    (retries : ℕ) (skipThrottle skipCB : Bool)
    (refreshConnFails : Bool) (refreshCookieSid refreshCookieW : Option ℕ)
    (st : ClientState) : List Ev × ReqResult × ClientState :=
  if skipCB then
    _requestAfterGate now script backoffCancel reloginConnFails warmupSkip retries
      skipThrottle skipCB refreshConnFails refreshCookieSid refreshCookieW st []
  else
    let ck := _check_circuit_breaker now st.breaker
    let st0 := { st with breaker := ck.2 }
    if ck.1 = false then ([Ev.circuitCheck], .circuitOpen, st0)
    else
      _requestAfterGate now script backoffCancel reloginConnFails warmupSkip retries
        skipThrottle skipCB refreshConnFails refreshCookieSid refreshCookieW st0
        [Ev.circuitCheck]
where
  /-- The part of `_request` after the circuit-breaker gate: the session-refresh
  check, then throttle and retry loop. -/
  _requestAfterGate (now : ℚ) (script : ℕ → Outcome)
      (backoffCancel reloginConnFails warmupSkip : ℕ → Bool)
      (retries : ℕ) (skipThrottle skipCB : Bool)
      (refreshConnFails : Bool) (refreshCookieSid refreshCookieW : Option ℕ)
      (st : ClientState) (evs0 : List Ev) : List Ev × ReqResult × ClientState :=
    if _check_session_refresh_needed now st then
      if refreshConnFails then
        _requestRun now script backoffCancel reloginConnFails warmupSkip retries
          skipThrottle skipCB
          (_refresh_session now true refreshCookieSid refreshCookieW st)
          (evs0 ++ [Ev.sessionRefresh])
      else
        (evs0 ++ [Ev.sessionRefresh], .deadlock,
          -- the fields `_refresh_session` clears before its login hangs
          { st with
            loggedIn := false
            sessionId := none
            wmonid := none
            requestCount := 0
            sessionStartTime := now })
    else
      _requestRun now script backoffCancel reloginConnFails warmupSkip retries
        skipThrottle skipCB st evs0
  /-- Throttle, then the retry loop. -/
  _requestRun (now : ℚ) (script : ℕ → Outcome)
      (backoffCancel reloginConnFails warmupSkip : ℕ → Bool)
      (retries : ℕ) (skipThrottle skipCB : Bool)
      (st : ClientState) (evs0 : List Ev) : List Ev × ReqResult × ClientState :=
    let st2 := if skipThrottle then st
      else { st with requestCount := st.requestCount + 1 }
    let evs2 := if skipThrottle then ([] : List Ev) else [Ev.throttle]
    let run := attemptLoop now script backoffCancel reloginConnFails warmupSkip
      retries skipCB 0 (retries + 1) none st2
    (evs0 ++ evs2 ++ run.1, run.2)

/-- Helper: when every scripted outcome is an exception and no backoff sleep is
cancelled, the loop runs to exhaustion, records one breaker failure and raises
`RequestFailed` wrapping the last attempt's error. -/
theorem attemptLoop_exhaust (now : ℚ) (script : ℕ → Outcome) (bc rcf ws : ℕ → Bool)
    (retries : ℕ)
    (hs : ∀ i, script i = .timeoutErr ∨ script i = .connErr)
    (hbc : ∀ i, bc i = false) :
    ∀ left attempt lastErr st, attempt + left = retries + 1 → 1 ≤ left →
    (attemptLoop now script bc rcf ws retries false attempt left lastErr st).2.1
        = .requestFailed (errOfOutcome (script retries))
    ∧ Ev.breakerFail
      ∈ (attemptLoop now script bc rcf ws retries false attempt left lastErr st).1 := by
  intro left
  induction left with
  | zero =>
    intro attempt lastErr st _ h
    exact absurd h (by omega)
  | succ l ih =>
    intro attempt lastErr st hsum _
    by_cases hlt : attempt < retries
    · have hl1 : 1 ≤ l := by omega
      have hsum1 : attempt + 1 + l = retries + 1 := by omega
      rcases hs attempt with h | h
      · rw [attemptLoop, h]
        simp only [if_pos hlt, hbc attempt, Bool.false_eq_true, if_false]
        exact ⟨(ih (attempt + 1) (some .timeoutE) st hsum1 hl1).1,
          List.mem_cons_of_mem _ (List.mem_cons_of_mem _
            (ih (attempt + 1) (some .timeoutE) st hsum1 hl1).2)⟩
      · rw [attemptLoop, h]
        simp only [if_pos hlt, hbc attempt, Bool.false_eq_true, if_false]
        exact ⟨(ih (attempt + 1) (some .connE) st hsum1 hl1).1,
          List.mem_cons_of_mem _ (List.mem_cons_of_mem _
            (ih (attempt + 1) (some .connE) st hsum1 hl1).2)⟩
    · have hae : attempt = retries := by omega
      have hl0 : l = 0 := by omega
      subst hae hl0
      rcases hs attempt with h | h
      · rw [attemptLoop, h]
        simp only [if_neg hlt]
        rw [attemptLoop]
        exact ⟨by rfl, by simp⟩
      · rw [attemptLoop, h]
        simp only [if_neg hlt]
        rw [attemptLoop]
        exact ⟨by rfl, by simp⟩

/-- Helper for C5: a cancellation at attempt `k` — either the HTTP call itself is
cancelled, or attempt `k` fails with a retryable exception and its backoff sleep
is cancelled — preceded by `k` timeouts with uncancelled backoffs, makes the loop
propagate the cancellation at once: the trace is exactly `k` call/backoff pairs
followed by the `k`-th call, and the state is unchanged. -/
theorem attemptLoop_cancel_trace (now : ℚ) (script : ℕ → Outcome)
    (bc rcf ws : ℕ → Bool) (retries k : ℕ) (hk : k ≤ retries)
    (hs : ∀ i, i < k → script i = .timeoutErr)
    (hbc : ∀ i, i < k → bc i = false)
    (hcancel : script k = .cancelledErr
      ∨ (k < retries ∧ (script k = .timeoutErr ∨ script k = .connErr) ∧ bc k = true)) :
    ∀ left attempt lastErr st, attempt + left = retries + 1 → attempt ≤ k →
    attemptLoop now script bc rcf ws retries false attempt left lastErr st
      = ((List.range' attempt (k - attempt)).flatMap (fun i => [Ev.httpCall i, Ev.backoff])
          ++ [Ev.httpCall k], .cancelled, st) := by
  intro left
  induction left with
  | zero =>
    intro attempt lastErr st hsum hak
    exact absurd hsum (by omega)
  | succ l ih =>
    intro attempt lastErr st hsum hak
    by_cases hek : attempt = k
    · subst hek
      rcases hcancel with hck | ⟨hkr, hko, hbk⟩
      · rw [attemptLoop, hck]
        simp
      · rcases hko with hko | hko
        · rw [attemptLoop, hko]
          simp [hkr, hbk]
        · rw [attemptLoop, hko]
          simp [hkr, hbk]
    · have hlt : attempt < k := by omega
      have hltr : attempt < retries := by omega
      rw [attemptLoop, hs attempt hlt]
      simp only [if_pos hltr, hbc attempt hlt, Bool.false_eq_true, if_false]
      rw [ih (attempt + 1) (some .timeoutE) st (by omega) (by omega)]
      have hrange : List.range' attempt (k - attempt)
          = attempt :: List.range' (attempt + 1) (k - (attempt + 1)) := by
        have : k - attempt = (k - (attempt + 1)) + 1 := by omega
        rw [this, List.range'_succ]
      rw [hrange]
      simp

/-- C1 (code bug): the claim expects the 401-then-200 script with `maxRetries ≥ 1`
to perform one forced re-login and return the 200 response.  The code cannot do
this: the 401 branch's `async_login(force=True)` runs while the outer `_request`
still holds the non-reentrant request semaphore, and — the full session reset
having just cleared the RSA-key cache and the warm-up flags — it unavoidably
reaches a nested `_request` (warm-up page visit, RSA-key fetch, or the login POST)
once the connectivity pre-check succeeds, re-acquiring the held semaphore.  The run
therefore hangs after the session reset, the randomized delay and the entry into
the re-login: the second attempt is never issued and no 200 response is returned. -/
theorem request_401_relogin_deadlocks (now : ℚ) (script : ℕ → Outcome)
    (bc rcf ws : ℕ → Bool) (retries : ℕ) (st : ClientState)
    (hr : 1 ≤ retries) (h0 : script 0 = .status 401)
    (hconn : rcf 0 = false)
    (hclosed : st.breaker.circuitState = .closed)
    (hfresh : _check_session_refresh_needed now st = false) :
    (_request now script bc rcf ws retries false false false none none st).2.1
      = .deadlock
    ∧ (_request now script bc rcf ws retries false false false none none st).1
      = [Ev.circuitCheck, Ev.throttle, Ev.httpCall 0, Ev.sessionReset, Ev.backoff,
         Ev.relogin] := by
  have hck : _check_circuit_breaker now st.breaker = (true, st.breaker) := by
    unfold _check_circuit_breaker
    rw [hclosed]
  have h0r : 0 < retries := hr
  simp only [_request, _request._requestAfterGate, _request._requestRun, hck,
    Bool.true_eq_false, if_false, hfresh, Bool.false_eq_true]
  simp only [attemptLoop, h0]
  simp [h0r, hconn]

/-- C1 witness: the deadlock at the concrete failing input — 401 then 200,
`maxRetries = 1`, fresh state, the re-login's connectivity check succeeding. -/
theorem request_401_relogin_deadlocks_witness :
    (_request 0 (fun i => if i = 0 then .status 401 else .status 200) (fun _ => false)
        (fun _ => false) (fun _ => false) 1 false false false none none
        (initClientState 0)).2.1 = .deadlock
    ∧ (_request 0 (fun i => if i = 0 then .status 401 else .status 200) (fun _ => false)
        (fun _ => false) (fun _ => false) 1 false false false none none
        (initClientState 0)).1
      = [Ev.circuitCheck, Ev.throttle, Ev.httpCall 0, Ev.sessionReset, Ev.backoff,
         Ev.relogin] :=
  request_401_relogin_deadlocks 0 (fun i => if i = 0 then .status 401 else .status 200)
    (fun _ => false) (fun _ => false) (fun _ => false) 1 (initClientState 0)
    (by norm_num) rfl rfl rfl
    (by norm_num [_check_session_refresh_needed, initClientState])

/-- Counterexample to C2: with a `maxRetries = 0` override (a real code path — the
warm-up page visits use it) and the transport answering 403, the single attempt —
all `maxRetries + 1` of them — fails, yet `_request` returns the 403 response to
the caller instead of raising `RequestFailed`: the failing status codes only retry
while attempts remain, and on the last attempt control falls through to
`return resp`. -/
theorem request_exhaust_returns_403 :
    (_request 0 (fun _ => .status 403) (fun _ => false) (fun _ => false) (fun _ => false)
      0 false false false none none (initClientState 0)).2.1 = .response 403 := by
  norm_num [_request, _request._requestAfterGate, _request._requestRun, attemptLoop,
    _check_circuit_breaker, _check_session_refresh_needed, initClientState, initBreaker,
    _record_failure]

/-- C2 (amended): when every attempt fails with an exception (timeout or connection
error) and no cancellation occurs, `_request` exhausts all `maxRetries + 1` attempts,
records a breaker failure and raises `RequestFailed` wrapping the error of the last
attempt.  (A failing HTTP status on the final attempt instead returns that response
to the caller — see the counterexample.) -/
theorem request_exhaust_raises (now : ℚ) (script : ℕ → Outcome) (bc rcf ws : ℕ → Bool)
    (retries : ℕ) (st : ClientState)
    (hs : ∀ i, script i = .timeoutErr ∨ script i = .connErr)
    (hbc : ∀ i, bc i = false)
    (hclosed : st.breaker.circuitState = .closed)
    (hfresh : _check_session_refresh_needed now st = false) :
    (_request now script bc rcf ws retries false false false none none st).2.1
      = .requestFailed (errOfOutcome (script retries))
    ∧ Ev.breakerFail
      ∈ (_request now script bc rcf ws retries false false false none none st).1 := by
  have hck : _check_circuit_breaker now st.breaker = (true, st.breaker) := by
    unfold _check_circuit_breaker
    rw [hclosed]
  have hmain := attemptLoop_exhaust now script bc rcf ws retries hs hbc
    (retries + 1) 0 none { st with requestCount := st.requestCount + 1 }
    (by omega) (by omega)
  simp only [_request, _request._requestAfterGate, _request._requestRun, hck,
    Bool.true_eq_false, if_false, hfresh, Bool.false_eq_true, List.mem_append,
    List.mem_cons]
  exact ⟨hmain.1, by simp [hmain.2]⟩

/-- C2 witness: all attempts time out with `maxRetries = 2`. -/
theorem request_exhaust_raises_witness :
    (_request 0 (fun _ => .timeoutErr) (fun _ => false) (fun _ => false) (fun _ => false)
      2 false false false none none (initClientState 0)).2.1
      = .requestFailed (some .timeoutE)
    ∧ Ev.breakerFail
      ∈ (_request 0 (fun _ => .timeoutErr) (fun _ => false) (fun _ => false)
        (fun _ => false) 2 false false false none none (initClientState 0)).1 :=
  request_exhaust_raises 0 (fun _ => .timeoutErr) (fun _ => false) (fun _ => false)
    (fun _ => false) 2 (initClientState 0) (fun _ => Or.inl rfl) (fun _ => rfl) rfl
    (by norm_num [_check_session_refresh_needed, initClientState])

/-- C5: a cancellation raised at attempt `k` while `_request` awaits the HTTP call
(`script k = cancelledErr`) or while it awaits the backoff sleep after a retryable
failure at attempt `k` (`backoffCancel k = true`) propagates at once: the run
result is `cancelled` and the trace stops at the `k`-th HTTP call — no further
backoff sleep and no further attempt occur after the cancellation, and the client
state is untouched by the cancelled attempt. -/
theorem request_cancellation_propagates (now : ℚ) (script : ℕ → Outcome)
    (bc rcf ws : ℕ → Bool) (retries k : ℕ) (st : ClientState)
    (hk : k ≤ retries)
    (hs : ∀ i, i < k → script i = .timeoutErr)
    (hbc : ∀ i, i < k → bc i = false)
    (hcancel : script k = .cancelledErr
      ∨ (k < retries ∧ (script k = .timeoutErr ∨ script k = .connErr) ∧ bc k = true))
    (hclosed : st.breaker.circuitState = .closed)
    (hfresh : _check_session_refresh_needed now st = false) :
    (_request now script bc rcf ws retries false false false none none st).2.1
      = .cancelled
    ∧ (_request now script bc rcf ws retries false false false none none st).1
      = [Ev.circuitCheck, Ev.throttle]
        ++ ((List.range' 0 k).flatMap (fun i => [Ev.httpCall i, Ev.backoff])
            ++ [Ev.httpCall k]) := by
  have hckb : _check_circuit_breaker now st.breaker = (true, st.breaker) := by
    unfold _check_circuit_breaker
    rw [hclosed]
  have hmain := attemptLoop_cancel_trace now script bc rcf ws retries k hk hs hbc hcancel
    (retries + 1) 0 none { st with requestCount := st.requestCount + 1 }
    (by omega) (by omega)
  simp only [_request, _request._requestAfterGate, _request._requestRun, hckb,
    Bool.true_eq_false, if_false, hfresh, Bool.false_eq_true]
  rw [hmain]
  exact ⟨rfl, rfl⟩

/-- C5 witness, both cases at attempt 1 with `maxRetries = 3`: cancellation during
the HTTP call, and cancellation during the backoff sleep after a timeout. -/
theorem request_cancellation_propagates_witness :
    (_request 0 (fun i => if i < 1 then .timeoutErr else .cancelledErr) (fun _ => false)
        (fun _ => false) (fun _ => false) 3 false false false none none
        (initClientState 0)).2.1 = .cancelled
    ∧ (_request 0 (fun _ => .timeoutErr) (fun i => i == 1) (fun _ => false)
        (fun _ => false) 3 false false false none none (initClientState 0)).2.1
      = .cancelled := by
  constructor
  · exact (request_cancellation_propagates 0
      (fun i => if i < 1 then .timeoutErr else .cancelledErr) (fun _ => false)
      (fun _ => false) (fun _ => false) 3 1 (initClientState 0) (by omega)
      (fun i hi => by simp [hi]) (fun _ _ => rfl) (Or.inl (by norm_num)) rfl
      (by norm_num [_check_session_refresh_needed, initClientState])).1
  · exact (request_cancellation_propagates 0 (fun _ => .timeoutErr) (fun i => i == 1)
      (fun _ => false) (fun _ => false) 3 1 (initClientState 0) (by omega)
      (fun i hi => rfl)
      (fun i hi => by
        have h0 : i = 0 := by omega
        subst h0
        rfl)
      (Or.inr ⟨by omega, Or.inl rfl, rfl⟩) rfl
      (by norm_num [_check_session_refresh_needed, initClientState])).1

/-! ## C8: session-state invariant -/

/-- `loggedIn == true` implies `sessionToken != null`. -/
def sessionInvariant (st : ClientState) : Prop :=
  st.loggedIn = true → st.sessionId.isSome = true

theorem update_ids_loggedIn (cs cw : Option ℕ) (st : ClientState) :
    (_update_session_ids cs cw st).loggedIn = st.loggedIn := by
  unfold _update_session_ids
  cases cs <;> cases cw <;> rfl

theorem update_ids_sessionId_isSome (cs cw : Option ℕ) (st : ClientState)
    (h : st.sessionId.isSome = true) :
    (_update_session_ids cs cw st).sessionId.isSome = true := by
  unfold _update_session_ids
  cases cs <;> cases cw <;> simp_all

theorem async_login_inv (force netFails : Bool) (cs cw : Option ℕ) (st : ClientState)
    (hst : sessionInvariant st) : sessionInvariant (async_login force netFails cs cw st).1 := by
  unfold async_login
  split
  · exact hst
  · split
    · exact hst
    · dsimp only
      rcases hm : (_update_session_ids cs cw st).sessionId with _ | v
      · dsimp only
        intro hlog
        rw [update_ids_loggedIn] at hlog
        have hsome := update_ids_sessionId_isSome cs cw st (hst hlog)
        rw [hm] at hsome
        cases hsome
      · dsimp only
        intro _
        rfl

theorem full_reset_inv (now : ℚ) (st : ClientState) :
    sessionInvariant (_full_session_reset now st) := by
  intro h
  cases h

theorem refresh_session_inv (now : ℚ) (netFails : Bool) (cs cw : Option ℕ)
    (st : ClientState) : sessionInvariant (_refresh_session now netFails cs cw st) := by
  unfold _refresh_session
  exact async_login_inv true netFails cs cw _ (by intro h; cases h)

theorem keepalive_inv (netFails : Bool) (cs cw : Option ℕ) (st : ClientState)
    (hst : sessionInvariant st) : sessionInvariant (async_keepalive netFails cs cw st) := by
  unfold async_keepalive
  split
  · exact async_login_inv false netFails cs cw st hst
  · intro hlog
    rw [update_ids_loggedIn] at hlog
    exact update_ids_sessionId_isSome cs cw st (hst hlog)

theorem attemptLoop_inv (now : ℚ) (script : ℕ → Outcome) (bc rcf ws : ℕ → Bool)
    (retries : ℕ) (skipCB : Bool) :
    ∀ left attempt lastErr st, sessionInvariant st →
    sessionInvariant
      (attemptLoop now script bc rcf ws retries skipCB attempt left lastErr st).2.2 := by
  intro left
  induction left with
  | zero =>
    intro attempt lastErr st hst
    rw [attemptLoop]
    split
    · exact hst
    · exact hst
  | succ l ih =>
    intro attempt lastErr st hst
    rw [attemptLoop]
    cases hsc : script attempt with
    | cancelledErr => exact hst
    | timeoutErr =>
      dsimp only
      split
      · split
        · exact hst
        · exact ih _ _ _ hst
      · exact ih _ _ _ hst
    | connErr =>
      dsimp only
      split
      · split
        · exact hst
        · exact ih _ _ _ hst
      · exact ih _ _ _ hst
    | status code =>
      dsimp only
      split
      · exact hst
      · split
        · split
          · split
            · split
              · exact full_reset_inv now st
              · exact ih _ _ _ (full_reset_inv now st)
            · exact full_reset_inv now st
          · exact full_reset_inv now st
        · split
          · split
            · split
              · exact ih _ _ _ (full_reset_inv now _)
              · exact full_reset_inv now _
            · exact hst
          · split
            · split
              · exact ih _ _ _ hst
              · exact hst
            · split
              · split
                · exact ih _ _ _ hst
                · exact hst
              · exact hst

theorem request_inv (now : ℚ) (script : ℕ → Outcome) (bc rcf ws : ℕ → Bool)
    (retries : ℕ) (skipThrottle skipCB : Bool) (refConn : Bool)
    (rcs rcw : Option ℕ) (st : ClientState) (hst : sessionInvariant st) :
    sessionInvariant
      (_request now script bc rcf ws retries skipThrottle skipCB refConn rcs rcw
        st).2.2 := by
  have hrun : ∀ s evs0, sessionInvariant s → sessionInvariant
      (_request._requestRun now script bc rcf ws retries skipThrottle skipCB
        s evs0).2.2 := by
    intro s evs0 hs
    unfold _request._requestRun
    dsimp only
    apply attemptLoop_inv
    split
    · exact hs
    · exact hs
  have hgate : ∀ s evs0, sessionInvariant s → sessionInvariant
      (_request._requestAfterGate now script bc rcf ws retries skipThrottle skipCB
        refConn rcs rcw s evs0).2.2 := by
    intro s evs0 hs
    unfold _request._requestAfterGate
    split
    · split
      · exact hrun _ _ (refresh_session_inv now true rcs rcw s)
      · intro h
        cases h
    · exact hrun _ _ hs
  unfold _request
  split
  · exact hgate st [] hst
  · dsimp only
    split
    · exact hst
    · exact hgate _ [Ev.circuitCheck] hst

/-- One public client operation together with its environment parameters (cookie-jar
outcomes, connectivity-check outcomes, the scripted HTTP outcomes for request
handling, and the clock value at which the operation runs). -/
inductive ClientOp where
  | opLogin (force netFails : Bool) (cookieSid cookieW : Option ℕ)
  | opKeepalive (netFails : Bool) (cookieSid cookieW : Option ℕ)
  | opRefreshSession (now : ℚ) (netFails : Bool) (cookieSid cookieW : Option ℕ)
  | opFullReset (now : ℚ)
  | opRequest (now : ℚ) (script : ℕ → Outcome)
      (backoffCancel reloginConnFails warmupSkip : ℕ → Bool)
      (retries : ℕ) (skipThrottle skipCB : Bool)
      (refreshConnFails : Bool) (refreshCookieSid refreshCookieW : Option ℕ)

/-- Apply one client operation to the state. -/
def applyOp (st : ClientState) : ClientOp → ClientState
  | .opLogin force netFails cookieSid cookieW =>
    (async_login force netFails cookieSid cookieW st).1
  | .opKeepalive netFails cookieSid cookieW =>
    async_keepalive netFails cookieSid cookieW st
  | .opRefreshSession now netFails cookieSid cookieW =>
    _refresh_session now netFails cookieSid cookieW st
  | .opFullReset now => _full_session_reset now st
  | .opRequest now script bc rcf ws retries skipT skipCB refConn rcs rcw =>
    (_request now script bc rcf ws retries skipT skipCB refConn rcs rcw st).2.2

/-- Run a sequence of client operations from a state. -/
def applyOps (ops : List ClientOp) (st : ClientState) : ClientState :=
  ops.foldl applyOp st

theorem applyOp_inv (st : ClientState) (op : ClientOp) (hst : sessionInvariant st) :
    sessionInvariant (applyOp st op) := by
  cases op with
  | opLogin force netFails cs cw => exact async_login_inv force netFails cs cw st hst
  | opKeepalive netFails cs cw => exact keepalive_inv netFails cs cw st hst
  | opRefreshSession now netFails cs cw => exact refresh_session_inv now netFails cs cw st
  | opFullReset now => exact full_reset_inv now st
  | opRequest now script bc rcf ws retries skipT skipCB refConn rcs rcw =>
    exact request_inv now script bc rcf ws retries skipT skipCB refConn rcs rcw st hst

/-- C8: in every state reachable from the freshly constructed client by any sequence
of client operations — login, keepalive, forced session refresh, full session reset,
and request handling (including its internal 401 reset-and-relogin path) — whenever
the logged-in flag is true, the session id is non-null. -/
theorem session_invariant_reachable (t0 : ℚ) (ops : List ClientOp)
    (hlog : (applyOps ops (initClientState t0)).loggedIn = true) :
    (applyOps ops (initClientState t0)).sessionId.isSome = true := by
  have hfold : ∀ (l : List ClientOp) (st : ClientState), sessionInvariant st →
      sessionInvariant (applyOps l st) := by
    intro l
    induction l with
    | nil => intro st hst; exact hst
    | cons op rest ih =>
      intro st hst
      exact ih (applyOp st op) (applyOp_inv st op hst)
  exact hfold ops (initClientState t0) (by intro h; cases h) hlog

/-- C8 witness: after a successful forced login the flag is set and the invariant
yields the session id's presence. -/
theorem session_invariant_reachable_witness :
    (applyOps [ClientOp.opLogin true false (some 5) none]
      (initClientState 0)).sessionId.isSome = true :=
  session_invariant_reachable 0 [ClientOp.opLogin true false (some 5) none] rfl

/-! ## C6: throttle timing (`_throttle_request` and dispatch gaps) -/

/-- The throttle slice of the client state: `_last_request_time`, `_request_count`,
the user-agent rotation counters, and the two interval bounds fixed in `__init__`. -/
structure ThrottleState where
  lastRequestTime : ℚ
  requestCount : ℕ
  uaRotationCount : ℕ
  uaRotationInterval : ℕ
  minInterval : ℚ
  maxInterval : ℚ
deriving DecidableEq, Repr

/-- Throttle fields as set in `__init__`: the interval bounds are clamped to at
least 8 and 20 seconds, the rotation interval is the `randint(20, 40)` draw. -/
def initThrottle (minReq maxReq : ℚ) (iv : ℕ) : ThrottleState where
  lastRequestTime := 0
  requestCount := 0
  uaRotationCount := 0
  uaRotationInterval := iv
  minInterval := max minReq 8
  maxInterval := max maxReq 20

/-- `_throttle_request()` with the random draws passed in: `u` is the
`uniform(min, max)` draw, `j ≥ 0` the `expovariate` jitter, `newIv` the
re-randomized rotation interval.  Sleep is ideal time: the returned rational is
the dispatch time, which is also stored into `_last_request_time`. -/
def _throttle_request (u j : ℚ) (newIv : ℕ) (now : ℚ) (st : ThrottleState) :
    ℚ × ThrottleState :=
  let elapsed := now - st.lastRequestTime
  let target := u + j
  let now1 := if elapsed < target then now + (target - elapsed) else now
  let count1 := st.uaRotationCount + 1
  if count1 ≥ st.uaRotationInterval then
    (now1, { st with
             lastRequestTime := now1
             requestCount := st.requestCount + 1
             uaRotationCount := 0
             uaRotationInterval := newIv })
  else
    (now1, { st with
             lastRequestTime := now1
             requestCount := st.requestCount + 1
             uaRotationCount := count1 })

/-- One request as it reaches the dispatch point of `_request`: whether it bypasses
the throttle (`skip_throttle=True`, e.g. warm-up page visits), its random draws,
and the delay before the next request is issued. -/
structure ReqSpec where
  skip : Bool
  u : ℚ
  j : ℚ
  newIv : ℕ
  postDelay : ℚ
deriving DecidableEq, Repr

/-- Dispatch times of a back-to-back request sequence: each request either goes
through `_throttle_request` (which may sleep and updates `_last_request_time`) or
dispatches immediately leaving the throttle state untouched; the flag records
whether the request was throttled. -/
def runDispatches : List ReqSpec → ℚ → ThrottleState → List (Bool × ℚ)
  | [], _, _ => []
  | r :: rest, now, st =>
    if r.skip then (false, now) :: runDispatches rest (now + r.postDelay) st
    else
      let t := _throttle_request r.u r.j r.newIv now st
      (true, t.1) :: runDispatches rest (t.1 + r.postDelay) t.2

theorem throttle_dispatch_lb (u j : ℚ) (newIv : ℕ) (now : ℚ) (st : ThrottleState)
    (hu : st.minInterval ≤ u) (hj : 0 ≤ j) :
    st.lastRequestTime + st.minInterval ≤ (_throttle_request u j newIv now st).1 := by
  unfold _throttle_request
  dsimp only
  by_cases hc : now - st.lastRequestTime < u + j
  · split <;> simp only [if_pos hc] <;> linarith
  · split <;> simp only [if_neg hc] <;> linarith

theorem throttle_sets_last (u j : ℚ) (newIv : ℕ) (now : ℚ) (st : ThrottleState) :
    (_throttle_request u j newIv now st).2.lastRequestTime
      = (_throttle_request u j newIv now st).1 := by
  unfold _throttle_request
  dsimp only
  split <;> rfl

theorem throttle_preserves_min (u j : ℚ) (newIv : ℕ) (now : ℚ) (st : ThrottleState) :
    (_throttle_request u j newIv now st).2.minInterval = st.minInterval := by
  unfold _throttle_request
  dsimp only
  split <;> rfl

theorem runDispatches_head_lb (reqs : List ReqSpec) (now : ℚ) (st : ThrottleState)
    (hwf : ∀ r ∈ reqs, st.minInterval ≤ r.u ∧ 0 ≤ r.j ∧ 0 ≤ r.postDelay)
    (t : ℚ) (h : (runDispatches reqs now st)[0]? = some (true, t)) :
    st.lastRequestTime + st.minInterval ≤ t := by
  cases reqs with
  | nil => cases h
  | cons r rest =>
    rw [runDispatches] at h
    by_cases hskip : r.skip = true
    · rw [if_pos hskip] at h
      simp only [List.getElem?_cons_zero, Option.some.injEq, Prod.mk.injEq] at h
      cases h.1
    · rw [if_neg hskip] at h
      simp only [List.getElem?_cons_zero, Option.some.injEq, Prod.mk.injEq] at h
      rw [← h.2]
      exact throttle_dispatch_lb r.u r.j r.newIv now st
        (hwf r (by simp)).1 (hwf r (by simp)).2.1

/-- Helper for C6: in any run, two adjacent dispatches that both went through the
throttle are at least `minInterval` apart. -/
theorem runDispatches_gap (reqs : List ReqSpec) :
    ∀ (now : ℚ) (st : ThrottleState),
    (∀ r ∈ reqs, st.minInterval ≤ r.u ∧ 0 ≤ r.j ∧ 0 ≤ r.postDelay) →
    ∀ (i : ℕ) (t1 t2 : ℚ),
    (runDispatches reqs now st)[i]? = some (true, t1) →
    (runDispatches reqs now st)[i + 1]? = some (true, t2) →
    t1 + st.minInterval ≤ t2 := by
  induction reqs with
  | nil =>
    intro now st _ i t1 t2 h1 _
    cases h1
  | cons r rest ih =>
    intro now st hwf i t1 t2 h1 h2
    have hwf' : ∀ x ∈ rest, st.minInterval ≤ x.u ∧ 0 ≤ x.j ∧ 0 ≤ x.postDelay :=
      fun x hx => hwf x (List.mem_cons_of_mem r hx)
    rw [runDispatches] at h1 h2
    by_cases hskip : r.skip = true
    · rw [if_pos hskip] at h1 h2
      cases i with
      | zero =>
        simp only [List.getElem?_cons_zero, Option.some.injEq, Prod.mk.injEq] at h1
        cases h1.1
      | succ i' =>
        rw [List.getElem?_cons_succ] at h1 h2
        exact ih (now + r.postDelay) st hwf' i' t1 t2 h1 h2
    · rw [if_neg hskip] at h1 h2
      cases i with
      | zero =>
        simp only [List.getElem?_cons_zero, Option.some.injEq, Prod.mk.injEq] at h1
        rw [List.getElem?_cons_succ] at h2
        have hlast := throttle_sets_last r.u r.j r.newIv now st
        have hmin := throttle_preserves_min r.u r.j r.newIv now st
        have hwf2 : ∀ x ∈ rest,
            (_throttle_request r.u r.j r.newIv now st).2.minInterval ≤ x.u
            ∧ 0 ≤ x.j ∧ 0 ≤ x.postDelay := by
          rw [hmin]; exact hwf'
        have := runDispatches_head_lb rest
          ((_throttle_request r.u r.j r.newIv now st).1 + r.postDelay)
          (_throttle_request r.u r.j r.newIv now st).2 hwf2 t2 h2
        rw [hlast, hmin, h1.2] at this
        exact this
      | succ i' =>
        rw [List.getElem?_cons_succ] at h1 h2
        have hmin := throttle_preserves_min r.u r.j r.newIv now st
        have hwf2 : ∀ x ∈ rest,
            (_throttle_request r.u r.j r.newIv now st).2.minInterval ≤ x.u
            ∧ 0 ≤ x.j ∧ 0 ≤ x.postDelay := by
          rw [hmin]; exact hwf'
        have := ih ((_throttle_request r.u r.j r.newIv now st).1 + r.postDelay)
          (_throttle_request r.u r.j r.newIv now st).2 hwf2 i' t1 t2 h1 h2
        rw [hmin] at this
        exact this

/-- Counterexample to C6: a warm-up request (`skip_throttle=True`) dispatched right
after a throttled request — the pair of consecutive dispatches at times 108 and 108
has gap 0, below the 8-second minimum interval; the claim as stated (about any two
consecutive requests) is false because warm-up requests bypass the throttle gate
and do not update `_last_request_time`. -/
theorem throttle_skip_counterexample :
    runDispatches [⟨false, 8, 0, 10, 0⟩, ⟨false, 8, 0, 10, 0⟩, ⟨true, 8, 0, 10, 0⟩]
        100 (initThrottle 8 20 20)
      = [(true, 100), (true, 108), (false, 108)]
    ∧ (108 : ℚ) - 108 < (initThrottle 8 20 20).minInterval := by
  constructor
  · norm_num [runDispatches, _throttle_request, initThrottle]
  · norm_num [initThrottle]

/-- C6 (amended): the throttle lower bound holds for requests that actually pass
through the throttle: in any back-to-back run, two adjacent dispatches that were
both throttled are at least `minInterval` apart (warm-up requests with
`skip_throttle=True` bypass the gate and may be dispatched arbitrarily close —
see the counterexample). -/
theorem throttled_dispatch_gap (reqs : List ReqSpec) (now : ℚ) (st : ThrottleState)
    (hwf : ∀ r ∈ reqs, st.minInterval ≤ r.u ∧ 0 ≤ r.j ∧ 0 ≤ r.postDelay)
    (i : ℕ) (t1 t2 : ℚ)
    (h1 : (runDispatches reqs now st)[i]? = some (true, t1))
    (h2 : (runDispatches reqs now st)[i + 1]? = some (true, t2)) :
    st.minInterval ≤ t2 - t1 := by
  have := runDispatches_gap reqs now st hwf i t1 t2 h1 h2
  linarith

/-- C6 witness: two throttled back-to-back requests, dispatched at 100 and 108. -/
theorem throttled_dispatch_gap_witness :
    (initThrottle 8 20 20).minInterval ≤ (108 : ℚ) - 100 :=
  throttled_dispatch_gap [⟨false, 8, 0, 10, 0⟩, ⟨false, 8, 0, 10, 0⟩] 100
    (initThrottle 8 20 20)
    (by
      intro r hr
      simp only [List.mem_cons, List.not_mem_nil, or_false] at hr
      rcases hr with rfl | rfl <;> norm_num [initThrottle])
    0 100 108
    (by norm_num [runDispatches, _throttle_request, initThrottle])
    (by norm_num [runDispatches, _throttle_request, initThrottle])

/-! ## C9: lotto 6/45 number check (`async_check_lotto645_numbers`) -/

/-- One element of the `checked` list built by `async_check_lotto645_numbers`
(the fields the claim is about). -/
structure CheckResult645 where
  match_count : ℕ
  bonus_match : Bool
  rank : Option ℕ
deriving DecidableEq, Repr

/-- The per-ticket body of the checking loop: `match_count` is the cardinality of
the intersection of the winning set with the ticket set, `bonus_match` follows
Python truthiness (`bonus in entry_set if bonus else False` — an absent or zero
bonus never matches), and the rank ladder is 6 → 1, 5+bonus → 2, 5 → 3, 4 → 4,
3 → 5, otherwise no rank. -/
def checkLotto645Entry (winNumbers : Finset ℕ) (bonus : Option ℕ) (entry : Finset ℕ) :
    CheckResult645 :=
  let matchCount := (winNumbers ∩ entry).card
  let bonusMatch := match bonus with
    | some b => if b ≠ 0 then decide (b ∈ entry) else false
    | none => false
  let rank : Option ℕ :=
    if matchCount = 6 then some 1
    else if matchCount = 5 ∧ bonusMatch = true then some 2
    else if matchCount = 5 then some 3
    else if matchCount = 4 then some 4
    else if matchCount = 3 then some 5
    else none
  ⟨matchCount, bonusMatch, rank⟩

/-- C9: with winning numbers `{3,14,22,31,38,45}` and bonus 7, the four concrete
tickets get match counts 6, 5 (with bonus), 4 and 0, and ranks 1, 2, 4 and none. -/
theorem check_lotto645_scenario :
    checkLotto645Entry {3, 14, 22, 31, 38, 45} (some 7) {3, 14, 22, 31, 38, 45}
      = ⟨6, false, some 1⟩
    ∧ checkLotto645Entry {3, 14, 22, 31, 38, 45} (some 7) {3, 14, 22, 31, 38, 7}
      = ⟨5, true, some 2⟩
    ∧ checkLotto645Entry {3, 14, 22, 31, 38, 45} (some 7) {3, 14, 22, 31, 9, 10}
      = ⟨4, false, some 4⟩
    ∧ checkLotto645Entry {3, 14, 22, 31, 38, 45} (some 7) {1, 2, 9, 10, 11, 12}
      = ⟨0, false, none⟩ := by
  refine ⟨?_, ?_, ?_, ?_⟩ <;> decide

/-! ## C10: lotto 6/45 purchase validation (`_buy_lotto645` and its wrappers) -/

inductive BuyMode where
  | auto
  | manual
deriving DecidableEq, Repr

/-- The network traffic of a purchase call: the login precondition, the two
purchase-session requests issued by `_get_lotto645_requirements`
(`egovUserReadySocket.json` and the `game645.do` form page), and the final
`execBuy.do` POST. -/
inductive BuyEv where
  | loginEv
  | readySocketEv
  | gamePageEv
  | execBuyEv
deriving DecidableEq, Repr

inductive BuyErr where
  | countRange
  | manualMismatch
  | manualLineLen
deriving DecidableEq, Repr

/-- `_buy_lotto645(count, mode, numbers)`: login, then the `1 ≤ count ≤ 5` guard
(raising before any purchase request); then the purchase-session requirements are
fetched; the `param` construction for manual mode validates that `numbers` is a
non-empty list of exactly `count` lines of 6 numbers each (raising before the
`execBuy.do` POST); finally the buy request is issued. -/
def _buy_lotto645 (count : ℤ) (mode : BuyMode) (numbers : Option (List (List ℕ))) :
    List BuyEv × Except BuyErr Unit :=
  if count < 1 ∨ count > 5 then ([.loginEv], .error .countRange)
  else
    match mode with
    | .auto => ([.loginEv, .readySocketEv, .gamePageEv, .execBuyEv], .ok ())
    | .manual =>
      match numbers with
      | none => ([.loginEv, .readySocketEv, .gamePageEv], .error .manualMismatch)
      | some ns =>
        if ns.isEmpty ∨ (ns.length : ℤ) ≠ count then
          ([.loginEv, .readySocketEv, .gamePageEv], .error .manualMismatch)
        else if ns.any (fun line => line.length != 6) then
          ([.loginEv, .readySocketEv, .gamePageEv], .error .manualLineLen)
        else ([.loginEv, .readySocketEv, .gamePageEv, .execBuyEv], .ok ())

/-- `async_buy_lotto645_auto(count)`. -/
def async_buy_lotto645_auto (count : ℤ) : List BuyEv × Except BuyErr Unit :=
  _buy_lotto645 count .auto none

/-- `async_buy_lotto645_manual(numbers)`: the count is the number of lines. -/
def async_buy_lotto645_manual (numbers : List (List ℕ)) : List BuyEv × Except BuyErr Unit :=
  _buy_lotto645 (numbers.length : ℤ) .manual (some numbers)

/-- C10: a count outside 1..5 makes both purchase operations raise with no
purchase-flow request issued (only the login precondition runs); in manual mode a
line count differing from `count`, or any line without exactly 6 numbers, raises
before the `execBuy.do` POST is issued. -/
theorem buy_lotto645_validation (count : ℤ) (mode : BuyMode)
    (numbers : Option (List (List ℕ))) :
    ((count < 1 ∨ count > 5) →
      _buy_lotto645 count mode numbers = ([.loginEv], .error .countRange)
      ∧ async_buy_lotto645_auto count = ([.loginEv], .error .countRange))
    ∧ (∀ ns, mode = .manual → numbers = some ns → 1 ≤ count → count ≤ 5 →
        (ns.length : ℤ) ≠ count →
        _buy_lotto645 count mode numbers
          = ([.loginEv, .readySocketEv, .gamePageEv], .error .manualMismatch))
    ∧ (∀ ns line, mode = .manual → numbers = some ns → 1 ≤ count → count ≤ 5 →
        (ns.length : ℤ) = count → line ∈ ns → line.length ≠ 6 →
        _buy_lotto645 count mode numbers
          = ([.loginEv, .readySocketEv, .gamePageEv], .error .manualLineLen)) := by
  refine ⟨?_, ?_, ?_⟩
  · intro hrange
    constructor
    · unfold _buy_lotto645
      rw [if_pos hrange]
    · unfold async_buy_lotto645_auto _buy_lotto645
      rw [if_pos hrange]
  · intro ns hmode hnum h1 h5 hlen
    subst hmode hnum
    unfold _buy_lotto645
    rw [if_neg (by omega)]
    dsimp only
    rw [if_pos (Or.inr hlen)]
  · intro ns line hmode hnum h1 h5 hlen hline hlen6
    subst hmode hnum
    unfold _buy_lotto645
    rw [if_neg (by omega)]
    dsimp only
    have hne : ns.isEmpty = false := by
      cases ns with
      | nil => cases hline
      | cons a l => rfl
    rw [if_neg (by simp [hne, hlen])]
    rw [if_pos (by
      rw [List.any_eq_true]
      exact ⟨line, hline, by simpa using hlen6⟩)]

/-- C10 witness: a zero count, a manual call with a mismatched line count, and a
manual call with a 3-number line. -/
theorem buy_lotto645_validation_witness :
    _buy_lotto645 0 .auto none = ([.loginEv], .error .countRange)
    ∧ async_buy_lotto645_auto 0 = ([.loginEv], .error .countRange)
    ∧ _buy_lotto645 2 .manual (some [[1, 2, 3, 4, 5, 6]])
      = ([.loginEv, .readySocketEv, .gamePageEv], .error .manualMismatch)
    ∧ _buy_lotto645 1 .manual (some [[1, 2, 3]])
      = ([.loginEv, .readySocketEv, .gamePageEv], .error .manualLineLen) := by
  refine ⟨?_, ?_, ?_, ?_⟩
  · exact ((buy_lotto645_validation 0 .auto none).1 (by norm_num)).1
  · exact ((buy_lotto645_validation 0 .auto none).1 (by norm_num)).2
  · exact (buy_lotto645_validation 2 .manual (some [[1, 2, 3, 4, 5, 6]])).2.1
      [[1, 2, 3, 4, 5, 6]] rfl rfl (by norm_num) (by norm_num) (by norm_num)
  · exact (buy_lotto645_validation 1 .manual (some [[1, 2, 3]])).2.2
      [[1, 2, 3]] [1, 2, 3] rfl rfl (by norm_num) (by norm_num) (by norm_num)
      (by simp) (by norm_num)
